import Mathlib

/-!
Verification of the We-Are ExpressJS middleware library.

The core of the development is a shallow embedding of the session
deduplicator `getSessionFromStorageWrapper` (src/helper/session-helper.ts):
a transition system over configurations that carry the module-level
`refreshingSessions` list and one task per in-flight call to the wrapper.
JavaScript runs these calls with single-threaded cooperative concurrency,
so every segment of code between two `await` suspension points executes
atomically; each transition of the step relation is exactly one such
atomic segment.

The second part embeds `errorHandler` (src/http-error/error-handler.ts)
and `validateAccessGrant` (src/middleware/vc-middleware.ts) as pure
functions on explicit request data.
-/

namespace WeAre

/-- The `info` record of an `@inrupt` `Session`; the wrapper only ever reads
its `sessionId` field. -/
structure SessionInfo where
  sessionId : String
deriving DecidableEq, Repr

/-- An authenticated session object, opaque except for `info.sessionId`. -/
structure Session where
  info : SessionInfo
deriving DecidableEq, Repr

/-- A value travelling on `refreshedSubject : Subject<Session | Error | null>`.
`val none` is the JavaScript `null`: it is both the "reset marker"
(`refreshedSubject.next(null)`) and a not-found session emitted by
`refreshedSubject.next(session!)` when `session` is `null` — the two are the
same runtime value. `err m` is a JavaScript `Error` whose `message` is `m`. -/
inductive Emit where
  | val : Option Session → Emit
  | err : String → Emit
deriving DecidableEq, Repr

/-- `emittedValue instanceof Error`. -/
def Emit.isError : Emit → Bool
  | .err _ => true
  | .val _ => false

/-- `emittedValue?.info.sessionId` for a non-`Error` emitted value:
optional chaining turns `null` into `undefined` (here `none`). The `.err`
case is unreachable behind the `!(emittedValue instanceof Error)` guard. -/
def Emit.optInfoSessionId : Emit → Option String
  | .val (some s) => some s.info.sessionId
  | .val none => none
  | .err _ => none

/-- `emittedValue.message` of an `Error` emitted value. -/
def Emit.errMessage : Emit → Option String
  | .err m => some m
  | .val _ => none

/-- The predicate of `filter(...)` inside `getSessionFromStorageWrapper`
(session-helper.ts, lines 15–21):
`(!(emittedValue instanceof Error) && emittedValue?.info.sessionId === sessionId)
 || (emittedValue instanceof Error && emittedValue.message === sessionId)`. -/
def matchesFilter (sessionId : String) (emittedValue : Emit) : Bool :=
  (!emittedValue.isError && emittedValue.optInfoSessionId == some sessionId) ||
  (emittedValue.isError && emittedValue.errMessage == some sessionId)

/-- Outcome of the awaited `getSessionFromStorage(sessionId, { storage })`:
the promise resolves with a session or with `null` (not found), or rejects. -/
inductive FetchResult where
  | ok : Option Session → FetchResult
  | error : FetchResult
deriving DecidableEq, Repr

/-- The two `refreshedSubject.next(...)` calls the leader performs after its
fetch settles, in program order: on rejection `next(new Error(sessionId))`
then `next(null)`; on resolution `next(session!)` then `next(null)`. -/
def emissionsFor (sessionId : String) (r : FetchResult) : List Emit :=
  match r with
  | .ok s => [.val s, .val none]
  | .error => [.err sessionId, .val none]

/-- What the leader's own call returns once its fetch settles: the fetched
value on resolution, `null` after the `catch` block on rejection. -/
def leaderReturn (r : FetchResult) : Option Session :=
  match r with
  | .ok s => s
  | .error => none

/-- `Array.prototype.indexOf`: index of the first occurrence, `-1` if absent. -/
def jsIndexOf (l : List String) (x : String) : Int :=
  match l with
  | [] => -1
  | y :: ys =>
    if y == x then 0
    else
      let r := jsIndexOf ys x
      if r == -1 then -1 else r + 1

/-- `Array.prototype.splice(i, 1)`: a negative start index counts from the
end of the array (so `splice(-1, 1)` drops the last element), and a start
index past the end removes nothing. -/
def jsSpliceOne (l : List String) (i : Int) : List String :=
  let start : Nat :=
    if i < 0 then ((l.length : Int) + i).toNat
    else min i.toNat l.length
  l.take start ++ l.drop (start + 1)

example : jsIndexOf ["a", "b"] "b" = 1 := by decide
example : jsIndexOf ["a", "b"] "c" = -1 := by decide
example : jsSpliceOne ["a", "b", "c"] (jsIndexOf ["a", "b", "c"] "b") = ["a", "c"] := by decide
example : jsSpliceOne ["a", "b"] (-1) = ["a"] := by decide
example : matchesFilter "s" (.val (some ⟨⟨"s"⟩⟩)) = true := by decide
example : matchesFilter "s" (.val none) = false := by decide
example : matchesFilter "s" (.err "s") = true := by decide

/-- The control point a call to `getSessionFromStorageWrapper` has reached.
`start` — invoked, its body not yet run; `following` — suspended on
`await firstValueFrom(refreshedSubject.pipe(filter ...))`; `fetching` —
this call pushed its id and is suspended on `await getSessionFromStorage`;
`doneOk v` — the call returned `v` (`none` is `null`); `doneErr m` — the
call threw an `Error` whose message is `m`. -/
inductive Phase where
  | start
  | following
  | fetching
  | doneOk : Option Session → Phase
  | doneErr : String → Phase
deriving DecidableEq, Repr

/-- One logical call to `getSessionFromStorageWrapper sessionId`. -/
structure Task where
  sessionId : String
  phase : Phase
deriving DecidableEq, Repr

/-- Shared state: the module-level `refreshingSessions` array plus the set
of concurrently executing calls. `refreshedSubject` needs no state of its
own: an rxjs `Subject` is stateless between emissions, and `next` delivers
a value synchronously to the subscribers present at that instant. -/
structure Config where
  refreshingSessions : List String
  tasks : List Task
deriving DecidableEq, Repr

/-- Synchronous delivery of one emitted value to one subscriber of
`refreshedSubject`. Only a task suspended in `firstValueFrom` is
subscribed; it resolves on the first value passing `matchesFilter` and is
unsubscribed from then on (`firstValueFrom` takes a single value). A
resolved follower throws the value if it `instanceof Error`, otherwise
returns it (the filter guarantees a matching non-`Error` value is a
session, never `null`). -/
def deliverTask (e : Emit) (t : Task) : Task :=
  match t.phase with
  | .following =>
    if matchesFilter t.sessionId e then
      match e with
      | .err m => { t with phase := .doneErr m }
      | .val s => { t with phase := .doneOk s }
    else t
  | _ => t

/-- Deliver one emission to every subscriber. -/
def deliver (e : Emit) (ts : List Task) : List Task :=
  ts.map (deliverTask e)

/-- Deliver a sequence of emissions in program order. -/
def deliverAll (es : List Emit) (ts : List Task) : List Task :=
  es.foldl (fun ts e => deliver e ts) ts

/-- Phase of the leader task once its own fetch has settled: `doneOk` of
the fetched value on resolution, `doneOk none` (return `null`) after the
`catch` block on rejection. -/
def leaderDone (r : FetchResult) : Phase :=
  .doneOk (leaderReturn r)

/-- The leader's atomic continuation when `getSessionFromStorage` settles
with result `r` (session-helper.ts, lines 43–57): emit the substantive
value and the `null` reset marker to the current subscribers, splice
`sessionId` out of `refreshingSessions` via `indexOf`, and return. -/
def settleConfig (c : Config) (i : Nat) (r : FetchResult) : Config :=
  match c.tasks[i]? with
  | none => c
  | some t =>
    { refreshingSessions :=
        jsSpliceOne c.refreshingSessions (jsIndexOf c.refreshingSessions t.sessionId),
      tasks := (deliverAll (emissionsFor t.sessionId r) c.tasks).set i
        { sessionId := t.sessionId, phase := leaderDone r } }

/-- The leader's atomic prefix (session-helper.ts, lines 33–42): push the
id onto `refreshingSessions` and invoke `getSessionFromStorage`, then
suspend. -/
def leaderConfig (c : Config) (i : Nat) (t : Task) : Config :=
  { refreshingSessions := c.refreshingSessions ++ [t.sessionId],
    tasks := c.tasks.set i { t with phase := .fetching } }

/-- The follower's atomic prefix (lines 9–14): the id was found in
`refreshingSessions`, so subscribe via `firstValueFrom` and suspend. -/
def followerConfig (c : Config) (i : Nat) (t : Task) : Config :=
  { c with tasks := c.tasks.set i { t with phase := .following } }

/-- Observable event of one atomic step. `fetch i sid` — task `i` took the
leader path, so `getSessionFromStorage` was invoked for `sid`; `wait i sid`
— task `i` took the follower path and fetched nothing; `settle i sid r` —
task `i` is a leader whose backing-store fetch settled with `r`. -/
inductive Event where
  | fetch : Nat → String → Event
  | wait : Nat → String → Event
  | settle : Nat → String → FetchResult → Event
deriving DecidableEq, Repr

/-- One atomic step of the interleaving semantics: a ready task runs from
its current suspension point to its next one. Followers take no step of
their own — they are resolved synchronously by a leader's emission, and
their post-`await` code touches no shared state. -/
inductive Step : Config → Event → Config → Prop where
  | follower {c : Config} (i : Nat) (t : Task) :
      c.tasks[i]? = some t → t.phase = .start →
      jsIndexOf c.refreshingSessions t.sessionId > -1 →
      Step c (.wait i t.sessionId) (followerConfig c i t)
  | leader {c : Config} (i : Nat) (t : Task) :
      c.tasks[i]? = some t → t.phase = .start →
      ¬ jsIndexOf c.refreshingSessions t.sessionId > -1 →
      Step c (.fetch i t.sessionId) (leaderConfig c i t)
  | settle {c : Config} (i : Nat) (t : Task) (r : FetchResult) :
      c.tasks[i]? = some t → t.phase = .fetching →
      Step c (.settle i t.sessionId r) (settleConfig c i r)

/-- Multi-step execution collecting the trace of events. -/
inductive Exec : Config → List Event → Config → Prop where
  | nil {c : Config} : Exec c [] c
  | cons {c c' c'' : Config} {e : Event} {tr : List Event} :
      Step c e c' → Exec c' tr c'' → Exec c (e :: tr) c''

/-- Initial configuration: `refreshingSessions` starts out empty and every
call is at its entry point. -/
def initConfig (sids : List String) : Config :=
  { refreshingSessions := [],
    tasks := sids.map (fun s => { sessionId := s, phase := .start }) }

/-- A configuration the module can actually be in. -/
def Reachable (c : Config) : Prop :=
  ∃ sids tr, Exec (initConfig sids) tr c

/-- `t` is a leader call holding an in-flight backing-store fetch for `sid`. -/
def pFetch (sid : String) (t : Task) : Bool :=
  decide (t.sessionId = sid ∧ t.phase = Phase.fetching)

/-- Number of tasks currently holding an in-flight backing-store fetch
for `sid`. -/
def numFetching (sid : String) (ts : List Task) : Nat :=
  ts.countP (pFetch sid)

/-- The correspondence `getSessionFromStorageWrapper` maintains between
`refreshingSessions` and the calls awaiting `getSessionFromStorage`:
each identifier occurs as often as it has an in-flight fetch, and never
more than once. -/
def Inv (c : Config) : Prop :=
  ∀ sid, c.refreshingSessions.count sid = numFetching sid c.tasks ∧
    c.refreshingSessions.count sid ≤ 1

/-- The step invoked `getSessionFromStorage`. -/
def isFetchEvent : Event → Bool
  | .fetch _ _ => true
  | _ => false

/-- The step was a leader's fetch settling. -/
def isSettleEvent : Event → Bool
  | .settle _ _ _ => true
  | _ => false

/-- The claim-side description of the first, substantive notification of a
cycle: the fetched session object on success, the tagged failure on
rejection. -/
def substantiveEmit (sid : String) (r : FetchResult) : Emit :=
  match r with
  | .ok s => .val s
  | .error => .err sid

/-- The values a step emits on `refreshedSubject`: a settle step emits the
leader's two `next(...)` values; every other step emits nothing. -/
def channelEmissions : Event → List Emit
  | .settle _ sid r => emissionsFor sid r
  | _ => []

/-- The configuration reached after one leader step for identifier `"s1"`. -/
def cAfterLeaderS1 : Config :=
  { refreshingSessions := ["s1"],
    tasks := [{ sessionId := "s1", phase := Phase.fetching }] }

/-- The configuration after a full fetch cycle for `"s1"` in which the
backend resolved with `null` (session not found) while one follower was
waiting: the cycle is over (`refreshingSessions` is empty again), the
leader returned `null`, and the follower is still suspended. -/
def cHungFollower : Config :=
  { refreshingSessions := [],
    tasks := [{ sessionId := "s1", phase := Phase.doneOk none },
              { sessionId := "s1", phase := Phase.following }] }

/-- One leader (task 0) and one follower (task 1), both for `"s3"`, with
the fetch in flight. -/
def cS3 : Config :=
  { refreshingSessions := ["s3"],
    tasks := [{ sessionId := "s3", phase := Phase.fetching },
              { sessionId := "s3", phase := Phase.following }] }

/-- A leader in flight for `"s4"` with a second, not yet started call for
`"s4"` — the sequential-calls scenario. -/
def cS4 : Config :=
  { refreshingSessions := ["s4"],
    tasks := [{ sessionId := "s4", phase := Phase.fetching },
              { sessionId := "s4", phase := Phase.start }] }

/-- A leader in flight for `"s5"` beside a not yet started call for the
distinct identifier `"s6"`. -/
def cMix : Config :=
  { refreshingSessions := ["s5"],
    tasks := [{ sessionId := "s5", phase := Phase.fetching },
              { sessionId := "s6", phase := Phase.start }] }

/-- Custom HTTP error class (src/http-error/http-error.ts): an `Error`
carrying an HTTP `statusCode`. -/
structure HttpError where
  message : String
  statusCode : Nat
deriving DecidableEq, Repr

/-- An error reaching `errorHandler`: either an instance of `HttpError`, or
any other `Error`, of which only the `message` is relevant. -/
inductive JsError where
  | http : HttpError → JsError
  | plain : String → JsError
deriving DecidableEq, Repr

/-- Message of the error, `error.message`. -/
def JsError.message : JsError → String
  | .http e => e.message
  | .plain m => m

/-- JavaScript `n || fallback` for a number `n`: the only falsy values of
type `number` are `0` and `NaN`; status codes are modelled as naturals,
where `0` is the falsy value. -/
def jsOrNum (n fallback : Nat) : Nat :=
  if n = 0 then fallback else n

/-- The response produced by `res.status(...).send(...)`. -/
structure HttpResponse where
  status : Nat
  body : String
deriving DecidableEq, Repr

/-- Embedding of `errorHandler` (src/http-error/error-handler.ts, lines
12–21): if `error instanceof HttpError` respond with
`res.status(error.statusCode || 500)`, otherwise with `res.status(500)`;
in both branches send `error.message` as the body. -/
def errorHandler (error : JsError) : HttpResponse :=
  match error with
  | .http e => { status := jsOrNum e.statusCode 500, body := e.message }
  | .plain m => { status := 500, body := m }

/-- The session fields `validateAccessGrant` reads, declared
`accessGrant?: string` and `accessGrantExpirationDate?: string` in the
express-session data interface; `none` models an absent field. -/
structure SessionData where
  accessGrant : Option String
  accessGrantExpirationDate : Option String
deriving DecidableEq, Repr

/-- JavaScript truthiness of a `string | undefined` value: absent and the
empty string are falsy. -/
def truthyStr : Option String → Bool
  | none => false
  | some s => !(s == "")

/-- What `validateAccessGrant` does with the request: pass it to the next
middleware, or answer it with a status and body itself. -/
inductive VcOutcome where
  | next
  | respond : Nat → String → VcOutcome
deriving DecidableEq, Repr

/-- Embedding of `validateAccessGrant` (vc-middleware.ts, lines 183–199),
with `new Date(s).getTime()` abstracted as `getTime` and `Date.now()` as
`now`: respond 403 when `!req.session.accessGrant`; respond 403 when
`req.session.accessGrantExpirationDate` is truthy and its time is strictly
before `now`; otherwise call `next()`. -/
def validateAccessGrant (getTime : String → Int) (now : Int)
    (session : SessionData) : VcOutcome :=
  if !truthyStr session.accessGrant then
    .respond 403 "No access grant for pod found."
  else if truthyStr session.accessGrantExpirationDate &&
      decide (getTime (session.accessGrantExpirationDate.getD "") < now) then
    .respond 403 "Access grant for pod has expired."
  else
    .next

theorem jsIndexOf_neg1_of_not_mem (l : List String) (x : String) (h : x ∉ l) :
    jsIndexOf l x = -1 := by
  induction l with
  | nil => rfl
  | cons y ys ih =>
    simp only [List.mem_cons, not_or] at h
    have hyx : (y == x) = false := by
      simp only [beq_eq_false_iff_ne]
      exact fun he => h.1 he.symm
    simp [jsIndexOf, hyx, ih h.2]

theorem jsIndexOf_nonneg_of_mem (l : List String) (x : String) (h : x ∈ l) :
    0 ≤ jsIndexOf l x := by
  induction l with
  | nil => simp at h
  | cons y ys ih =>
    by_cases hyx : y = x
    · simp [jsIndexOf, hyx]
    · have hx : x ∈ ys := by
        rcases List.mem_cons.mp h with h1 | h1
        · exact absurd h1.symm hyx
        · exact h1
      have hr := ih hx
      have hne : (y == x) = false := by simp [hyx]
      have hr1 : (jsIndexOf ys x == -1) = false := by
        simp only [beq_eq_false_iff_ne]
        omega
      simp only [jsIndexOf, hne, hr1, Bool.false_eq_true, if_false]
      omega

theorem jsIndexOf_gt_neg1_iff (l : List String) (x : String) :
    jsIndexOf l x > -1 ↔ x ∈ l := by
  constructor
  · intro h
    by_contra hx
    rw [jsIndexOf_neg1_of_not_mem l x hx] at h
    omega
  · intro h
    have := jsIndexOf_nonneg_of_mem l x h
    omega

theorem jsSpliceOne_cons_succ (y : String) (ys : List String) (r : Int) (hr : 0 ≤ r) :
    jsSpliceOne (y :: ys) (r + 1) = y :: jsSpliceOne ys r := by
  unfold jsSpliceOne
  have h1 : ¬ (r + 1 < 0) := by omega
  have h2 : ¬ (r < 0) := by omega
  have h3 : (r + 1).toNat = r.toNat + 1 := by omega
  have h4 : min (r.toNat + 1) (ys.length + 1) = min r.toNat ys.length + 1 := by omega
  simp only [h1, if_false, h2, h3, List.length_cons, h4, List.take_succ_cons,
    List.drop_succ_cons, List.cons_append]

/-- Splicing out `indexOf x` removes exactly the first occurrence of `x`. -/
theorem jsSpliceOne_jsIndexOf (l : List String) (x : String) (h : x ∈ l) :
    jsSpliceOne l (jsIndexOf l x) = l.erase x := by
  induction l with
  | nil => simp at h
  | cons y ys ih =>
    by_cases hyx : y = x
    · have hb : (y == x) = true := by simp [hyx]
      simp [jsIndexOf, hb, jsSpliceOne, List.erase_cons_head, hyx]
    · have hx : x ∈ ys := by
        rcases List.mem_cons.mp h with h1 | h1
        · exact absurd h1.symm hyx
        · exact h1
      have hne : (y == x) = false := by simp [hyx]
      have hr0 := jsIndexOf_nonneg_of_mem ys x hx
      have hr1 : (jsIndexOf ys x == -1) = false := by
        simp only [beq_eq_false_iff_ne]
        omega
      rw [List.erase_cons_tail]
      · simp only [jsIndexOf, hne, hr1, Bool.false_eq_true, if_false]
        rw [jsSpliceOne_cons_succ y ys _ hr0, ih hx]
      · simpa using hne

theorem countP_set_of_getElem {α : Type} (p : α → Bool) (l : List α) (i : Nat)
    (a b : α) (h : l[i]? = some a) :
    (l.set i b).countP p + (if p a then 1 else 0)
      = l.countP p + (if p b then 1 else 0) := by
  induction l generalizing i with
  | nil => simp at h
  | cons x xs ih =>
    cases i with
    | zero =>
      simp only [List.getElem?_cons_zero, Option.some.injEq] at h
      subst h
      simp only [List.set_cons_zero, List.countP_cons]
      omega
    | succ n =>
      simp only [List.getElem?_cons_succ] at h
      simp only [List.set_cons_succ, List.countP_cons]
      have := ih n h
      omega

theorem deliverTask_eq_of_not_following (e : Emit) (t : Task)
    (h : t.phase ≠ Phase.following) : deliverTask e t = t := by
  obtain ⟨sid, ph⟩ := t
  cases ph <;> first
    | rfl
    | exact absurd rfl h

theorem pFetch_deliverTask (sid : String) (e : Emit) (t : Task) :
    pFetch sid (deliverTask e t) = pFetch sid t := by
  obtain ⟨tsid, ph⟩ := t
  cases ph <;> try rfl
  by_cases hm : matchesFilter tsid e
  · cases e <;> simp [deliverTask, hm, pFetch]
  · simp [deliverTask, hm]

theorem numFetching_deliver (sid : String) (e : Emit) (ts : List Task) :
    numFetching sid (deliver e ts) = numFetching sid ts := by
  unfold numFetching deliver
  rw [List.countP_map]
  exact List.countP_congr (fun t _ => by
    rw [Function.comp_apply, pFetch_deliverTask sid e t])

theorem numFetching_deliverAll (sid : String) (es : List Emit) (ts : List Task) :
    numFetching sid (deliverAll es ts) = numFetching sid ts := by
  induction es generalizing ts with
  | nil => rfl
  | cons e es ih =>
    have h1 : deliverAll (e :: es) ts = deliverAll es (deliver e ts) := rfl
    rw [h1, ih (deliver e ts), numFetching_deliver]

theorem deliverAll_getElem_of_not_following (es : List Emit) (ts : List Task)
    (i : Nat) (t : Task) (h : ts[i]? = some t) (hf : t.phase ≠ Phase.following) :
    (deliverAll es ts)[i]? = some t := by
  induction es generalizing ts with
  | nil => exact h
  | cons e es ih =>
    have h1 : (deliver e ts)[i]? = some t := by
      unfold deliver
      rw [List.getElem?_map, h]
      simp [deliverTask_eq_of_not_following e t hf]
    exact ih (deliver e ts) h1

theorem pFetch_leaderDone (sid : String) (tsid : String) (r : FetchResult) :
    pFetch sid { sessionId := tsid, phase := leaderDone r } = false := by
  cases r <;> simp [pFetch, leaderDone, leaderReturn]

/-- A convenient restatement of `settleConfig` once the task looked up at
`i` is known. -/
theorem settleConfig_eq (c : Config) (i : Nat) (t : Task) (r : FetchResult)
    (hget : c.tasks[i]? = some t) :
    settleConfig c i r =
      { refreshingSessions :=
          jsSpliceOne c.refreshingSessions (jsIndexOf c.refreshingSessions t.sessionId),
        tasks := (deliverAll (emissionsFor t.sessionId r) c.tasks).set i
          { sessionId := t.sessionId, phase := leaderDone r } } := by
  unfold settleConfig
  rw [hget]

/-- Every atomic step of the wrapper preserves the in-flight-set invariant. -/
theorem step_preserves_Inv {c c' : Config} {e : Event} (hs : Step c e c')
    (hI : Inv c) : Inv c' := by
  cases hs with
  | follower i t hget hph hin =>
    intro sid
    obtain ⟨h1a, h1b⟩ := hI sid
    have h2 := countP_set_of_getElem (pFetch sid) c.tasks i t
      { t with phase := Phase.following } hget
    have ha : pFetch sid t = false := by simp [pFetch, hph]
    have hb : pFetch sid { t with phase := Phase.following } = false := by
      simp [pFetch]
    rw [ha, hb] at h2
    simp only [Bool.false_eq_true, if_false, Nat.add_zero] at h2
    show c.refreshingSessions.count sid
        = (c.tasks.set i { t with phase := Phase.following }).countP (pFetch sid)
      ∧ c.refreshingSessions.count sid ≤ 1
    rw [h2]
    exact ⟨h1a, h1b⟩
  | leader i t hget hph hnin =>
    intro sid
    obtain ⟨h1a, h1b⟩ := hI sid
    have hmem : t.sessionId ∉ c.refreshingSessions := by
      rw [← jsIndexOf_gt_neg1_iff]
      exact hnin
    have h2 := countP_set_of_getElem (pFetch sid) c.tasks i t
      { t with phase := Phase.fetching } hget
    have ha : pFetch sid t = false := by simp [pFetch, hph]
    rw [ha] at h2
    simp only [Bool.false_eq_true, if_false, Nat.add_zero] at h2
    show (c.refreshingSessions ++ [t.sessionId]).count sid
        = (c.tasks.set i { t with phase := Phase.fetching }).countP (pFetch sid)
      ∧ (c.refreshingSessions ++ [t.sessionId]).count sid ≤ 1
    rw [List.count_append]
    unfold numFetching at h1a
    by_cases hts : t.sessionId = sid
    · have hb : pFetch sid { t with phase := Phase.fetching } = true := by
        simp [pFetch, hts]
      rw [hb] at h2
      simp only [if_true] at h2
      have hz : c.refreshingSessions.count sid = 0 := by
        rw [List.count_eq_zero, ← hts]
        exact hmem
      have hone : List.count sid [t.sessionId] = 1 := by
        simp [List.count_cons, hts]
      rw [hone]
      omega
    · have hb : pFetch sid { t with phase := Phase.fetching } = false := by
        simp [pFetch, hts]
      rw [hb] at h2
      simp only [Bool.false_eq_true, if_false, Nat.add_zero] at h2
      have hzero : List.count sid [t.sessionId] = 0 := by
        simp [List.count_cons, hts]
      rw [hzero]
      omega
  | settle i t r hget hph =>
    intro sid
    obtain ⟨h1a, h1b⟩ := hI sid
    obtain ⟨h2a, h2b⟩ := hI t.sessionId
    have hmemT : t ∈ c.tasks := List.getElem?_mem hget
    have hpos : 0 < numFetching t.sessionId c.tasks := by
      unfold numFetching
      rw [List.countP_pos_iff]
      exact ⟨t, hmemT, by simp [pFetch, hph]⟩
    have hmemR : t.sessionId ∈ c.refreshingSessions := by
      by_contra hx
      rw [← List.count_eq_zero] at hx
      omega
    have hcfg : settleConfig c i r =
        { refreshingSessions := c.refreshingSessions.erase t.sessionId,
          tasks := (deliverAll (emissionsFor t.sessionId r) c.tasks).set i
            { sessionId := t.sessionId, phase := leaderDone r } } := by
      rw [settleConfig_eq c i t r hget, jsSpliceOne_jsIndexOf _ _ hmemR]
    have hda : (deliverAll (emissionsFor t.sessionId r) c.tasks)[i]? = some t :=
      deliverAll_getElem_of_not_following _ _ _ _ hget
        (by rw [hph]; intro hcon; cases hcon)
    have h3 := countP_set_of_getElem (pFetch sid)
      (deliverAll (emissionsFor t.sessionId r) c.tasks) i t
      { sessionId := t.sessionId, phase := leaderDone r } hda
    rw [pFetch_leaderDone] at h3
    have h4 : (deliverAll (emissionsFor t.sessionId r) c.tasks).countP (pFetch sid)
        = numFetching sid c.tasks := numFetching_deliverAll sid _ _
    rw [h4] at h3
    simp only [Bool.false_eq_true, if_false, Nat.add_zero] at h3
    rw [hcfg]
    show (c.refreshingSessions.erase t.sessionId).count sid
        = ((deliverAll (emissionsFor t.sessionId r) c.tasks).set i
            { sessionId := t.sessionId, phase := leaderDone r }).countP (pFetch sid)
      ∧ (c.refreshingSessions.erase t.sessionId).count sid ≤ 1
    unfold numFetching at h1a h2a h3 hpos
    by_cases hts : t.sessionId = sid
    · subst hts
      have ha : pFetch t.sessionId t = true := by simp [pFetch, hph]
      rw [ha] at h3
      simp only [if_true] at h3
      have hcnt : (c.refreshingSessions.erase t.sessionId).count t.sessionId
          = c.refreshingSessions.count t.sessionId - 1 :=
        List.count_erase_self t.sessionId c.refreshingSessions
      rw [hcnt]
      omega
    · have ha : pFetch sid t = false := by simp [pFetch, hts]
      rw [ha] at h3
      simp only [Bool.false_eq_true, if_false, Nat.add_zero] at h3
      have hcnt : (c.refreshingSessions.erase t.sessionId).count sid
          = c.refreshingSessions.count sid :=
        List.count_erase_of_ne (fun he => hts he.symm) c.refreshingSessions
      rw [hcnt]
      omega

theorem exec_preserves_Inv {c c' : Config} {tr : List Event}
    (he : Exec c tr c') (hI : Inv c) : Inv c' := by
  induction he with
  | nil => exact hI
  | cons hs _ ih => exact ih (step_preserves_Inv hs hI)

theorem initConfig_Inv (sids : List String) : Inv (initConfig sids) := by
  intro sid
  constructor
  · have h1 : (initConfig sids).refreshingSessions.count sid = 0 := rfl
    have h2 : numFetching sid (initConfig sids).tasks = 0 := by
      unfold numFetching initConfig
      rw [List.countP_map]
      rw [List.countP_eq_zero]
      intro a _
      simp [pFetch]
    rw [h1, h2]
  · exact Nat.le_succ 0

theorem reachable_Inv {c : Config} (h : Reachable c) : Inv c := by
  obtain ⟨sids, tr, he⟩ := h
  exact exec_preserves_Inv he (initConfig_Inv sids)

theorem initConfig_getElem (sids : List String) (i : Nat) (t : Task)
    (h : (initConfig sids).tasks[i]? = some t) :
    t.phase = Phase.start ∧ sids[i]? = some t.sessionId := by
  unfold initConfig at h
  rw [List.getElem?_map] at h
  cases hx : sids[i]? with
  | none => rw [hx] at h; cases h
  | some s =>
    rw [hx] at h
    simp only [Option.map_some', Option.some.injEq] at h
    rw [← h]
    exact ⟨rfl, rfl⟩

/-- While `sid` sits in `refreshingSessions` and no fetch settles, no call
whose identifier is `sid` ever invokes the backing store: each one takes
the follower path. -/
theorem no_fetch_while_inflight (c : Config) (tr : List Event) (c' : Config)
    (sid : String) (he : Exec c tr c')
    (hall : ∀ t ∈ c.tasks, t.sessionId = sid)
    (hnos : ∀ e ∈ tr, isSettleEvent e = false)
    (hin : sid ∈ c.refreshingSessions) :
    tr.countP isFetchEvent = 0 := by
  induction he with
  | nil => rfl
  | @cons c c2 c3 ev tr2 hs he2 ih =>
    cases hs with
    | follower i t hget hph hmatch =>
      have hall2 : ∀ t2 ∈ (followerConfig c i t).tasks, t2.sessionId = sid := by
        intro t2 ht2
        rcases List.mem_or_eq_of_mem_set ht2 with h2 | h2
        · exact hall t2 h2
        · rw [h2]
          exact hall t (List.getElem?_mem hget)
      have h0 : List.countP isFetchEvent (Event.wait i t.sessionId :: tr2)
          = List.countP isFetchEvent tr2 := by
        simp [List.countP_cons, isFetchEvent]
      rw [h0]
      exact ih hall2 (fun e hm => hnos e (List.mem_cons_of_mem _ hm)) hin
    | leader i t hget hph hnin =>
      exfalso
      apply hnin
      rw [jsIndexOf_gt_neg1_iff]
      rw [hall t (List.getElem?_mem hget)]
      exact hin
    | settle i t r hget hph =>
      exfalso
      have := hnos (Event.settle i t.sessionId r) (List.mem_cons_self _ _)
      simp [isSettleEvent] at this

/-- A first step out of an all-same-identifier initial configuration must
take the leader path: the in-flight set is empty, so neither the follower
branch nor a settle is enabled. -/
theorem first_step_is_fetch (sids : List String) (e : Event) (c2 : Config)
    (hs : Step (initConfig sids) e c2) :
    ∃ i t, (initConfig sids).tasks[i]? = some t ∧ e = Event.fetch i t.sessionId
      ∧ c2 = leaderConfig (initConfig sids) i t := by
  cases hs with
  | follower i t hget hph hmatch =>
    exfalso
    have : jsIndexOf (initConfig sids).refreshingSessions t.sessionId = -1 := rfl
    omega
  | leader i t hget hph hnin => exact ⟨i, t, hget, rfl, rfl⟩
  | settle i t r hget hph =>
    exfalso
    have := (initConfig_getElem sids i t hget).1
    rw [this] at hph
    cases hph

theorem initConfig_mem (sids : List String) (t : Task)
    (h : t ∈ (initConfig sids).tasks) :
    t.phase = Phase.start ∧ t.sessionId ∈ sids := by
  unfold initConfig at h
  rw [List.mem_map] at h
  obtain ⟨s, hs, ht⟩ := h
  rw [← ht]
  exact ⟨rfl, hs⟩

/-- C1: for any number of concurrent calls to `getSessionFromStorageWrapper`
with the same session identifier within one fetch cycle (an execution in
which the single in-flight fetch has not yet settled), `getSessionFromStorage`
is invoked exactly once: the trace contains at most one fetch event, and
exactly one as soon as any call has run — the first caller fetched, every
later caller found the identifier in `refreshingSessions` and waited. -/
theorem C1_one_backend_fetch_per_cycle (N : Nat) (sid : String)
    (tr : List Event) (c : Config)
    (he : Exec (initConfig (List.replicate N sid)) tr c)
    (hnos : ∀ e ∈ tr, isSettleEvent e = false) :
    tr.countP isFetchEvent ≤ 1 ∧ (tr ≠ [] → tr.countP isFetchEvent = 1) := by
  cases he with
  | nil => exact ⟨Nat.zero_le 1, fun h => absurd rfl h⟩
  | @cons _ c2 _ ev tr2 hs he2 =>
    obtain ⟨i, t, hget, hev, hc2⟩ := first_step_is_fetch _ _ _ hs
    have hsid : t.sessionId = sid := by
      have h1 := (initConfig_getElem _ i t hget).2
      rw [List.getElem?_replicate] at h1
      by_cases hi : i < N
      · rw [if_pos hi] at h1
        exact (Option.some.injEq _ _ ▸ h1).symm
      · rw [if_neg hi] at h1
        cases h1
    have hall2 : ∀ t2 ∈ (leaderConfig (initConfig (List.replicate N sid)) i t).tasks,
        t2.sessionId = sid := by
      intro t2 ht2
      rcases List.mem_or_eq_of_mem_set ht2 with h2 | h2
      · have := (initConfig_mem _ t2 h2).2
        exact List.eq_of_mem_replicate this
      · rw [h2]
        exact hsid
    have hin : sid ∈ (leaderConfig (initConfig (List.replicate N sid)) i t).refreshingSessions := by
      show sid ∈ [] ++ [t.sessionId]
      rw [hsid]
      exact List.mem_append_right _ (List.mem_singleton.mpr rfl)
    rw [hc2] at he2
    have h0 := no_fetch_while_inflight _ tr2 _ sid he2 hall2
      (fun e hm => hnos e (List.mem_cons_of_mem _ hm)) hin
    rw [hev]
    constructor
    · simp [List.countP_cons, isFetchEvent, h0]
    · intro _
      simp [List.countP_cons, isFetchEvent, h0]

/-- C1 witness: three concurrent calls for identifier `"s2"`; within the
cycle the backend is invoked exactly once. -/
theorem C1_one_backend_fetch_per_cycle_witness :
    List.countP isFetchEvent
      [Event.fetch 0 "s2", Event.wait 1 "s2", Event.wait 2 "s2"] = 1 := by
  have hexec : Exec (initConfig (List.replicate 3 "s2"))
      [Event.fetch 0 "s2", Event.wait 1 "s2", Event.wait 2 "s2"]
      (followerConfig
        (followerConfig
          (leaderConfig (initConfig (List.replicate 3 "s2")) 0 ⟨"s2", Phase.start⟩)
          1 ⟨"s2", Phase.start⟩)
        2 ⟨"s2", Phase.start⟩) :=
    Exec.cons (Step.leader 0 ⟨"s2", Phase.start⟩ (by decide) rfl (by decide))
      (Exec.cons (Step.follower 1 ⟨"s2", Phase.start⟩ (by decide) rfl (by decide))
        (Exec.cons (Step.follower 2 ⟨"s2", Phase.start⟩ (by decide) rfl (by decide))
          Exec.nil))
  exact (C1_one_backend_fetch_per_cycle 3 "s2" _ _ hexec (by decide)).2 (by decide)

/-- C2: in every reachable configuration the in-flight set
`refreshingSessions` contains each identifier at most once, and it contains
an identifier exactly as often as there is a leader with an in-flight
backing-store fetch for it (inserted when the leader begins, before its
await). Moreover a leader step appends exactly the one identifier and a
settling step — whatever the fetch result and the number of waiting
followers — removes exactly its one occurrence. -/
theorem C2_refreshing_sessions_discipline (c : Config) (hc : Reachable c) :
    c.refreshingSessions.Nodup ∧
    (∀ sid, c.refreshingSessions.count sid = numFetching sid c.tasks) ∧
    (∀ i sid c', Step c (.fetch i sid) c' →
      c'.refreshingSessions = c.refreshingSessions ++ [sid]) ∧
    (∀ i sid r c', Step c (.settle i sid r) c' →
      c'.refreshingSessions = c.refreshingSessions.erase sid) := by
  have hI := reachable_Inv hc
  refine ⟨?_, fun sid => (hI sid).1, ?_, ?_⟩
  · rw [List.nodup_iff_count_le_one]
    exact fun sid => (hI sid).2
  · intro i sid c' hs
    cases hs with
    | leader i t hget hph hnin => rfl
  · intro i sid r c' hs
    cases hs with
    | settle i t r hget hph =>
      have hmemT : t ∈ c.tasks := List.getElem?_mem hget
      have hpos : 0 < numFetching t.sessionId c.tasks := by
        unfold numFetching
        rw [List.countP_pos_iff]
        exact ⟨t, hmemT, by simp [pFetch, hph]⟩
      have hmemR : t.sessionId ∈ c.refreshingSessions := by
        have h2 := (hI t.sessionId).1
        by_contra hx
        rw [← List.count_eq_zero] at hx
        omega
      rw [settleConfig_eq c i t r hget]
      exact jsSpliceOne_jsIndexOf _ _ hmemR

/-- C2 witness: the configuration reached after one leader step for
identifier `"s1"` satisfies the at-most-once invariant. -/
theorem C2_refreshing_sessions_discipline_witness :
    cAfterLeaderS1.refreshingSessions.Nodup ∧
    cAfterLeaderS1.refreshingSessions.count "s1"
      = numFetching "s1" cAfterLeaderS1.tasks := by
  have hre : Reachable cAfterLeaderS1 :=
    ⟨["s1"], [Event.fetch 0 "s1"],
      Exec.cons (Step.leader 0 ⟨"s1", Phase.start⟩ (by decide) rfl (by decide)) Exec.nil⟩
  exact ⟨(C2_refreshing_sessions_discipline _ hre).1,
    (C2_refreshing_sessions_discipline _ hre).2.1 "s1"⟩

/-- No step at all is enabled in `cHungFollower`: the suspended follower
can never be resolved by the system on its own. -/
theorem cHungFollower_no_step (e : Event) (c' : Config)
    (h : Step cHungFollower e c') : False := by
  cases h with
  | follower i t hget hph hin =>
    rcases i with _ | _ | i
    · rw [show cHungFollower.tasks[0]?
          = some ⟨"s1", Phase.doneOk none⟩ from rfl] at hget
      injection hget with h2
      rw [← h2] at hph
      simp at hph
    · rw [show cHungFollower.tasks[1]?
          = some ⟨"s1", Phase.following⟩ from rfl] at hget
      injection hget with h2
      rw [← h2] at hph
      simp at hph
    · rw [show cHungFollower.tasks[i + 2]? = none from rfl] at hget
      cases hget
  | leader i t hget hph hnin =>
    rcases i with _ | _ | i
    · rw [show cHungFollower.tasks[0]?
          = some ⟨"s1", Phase.doneOk none⟩ from rfl] at hget
      injection hget with h2
      rw [← h2] at hph
      simp at hph
    · rw [show cHungFollower.tasks[1]?
          = some ⟨"s1", Phase.following⟩ from rfl] at hget
      injection hget with h2
      rw [← h2] at hph
      simp at hph
    · rw [show cHungFollower.tasks[i + 2]? = none from rfl] at hget
      cases hget
  | settle i t r hget hph =>
    rcases i with _ | _ | i
    · rw [show cHungFollower.tasks[0]?
          = some ⟨"s1", Phase.doneOk none⟩ from rfl] at hget
      injection hget with h2
      rw [← h2] at hph
      simp at hph
    · rw [show cHungFollower.tasks[1]?
          = some ⟨"s1", Phase.following⟩ from rfl] at hget
      injection hget with h2
      rw [← h2] at hph
      simp at hph
    · rw [show cHungFollower.tasks[i + 2]? = none from rfl] at hget
      cases hget

/-- C3, evaluated at the failing input: two concurrent calls for `"s1"`
and a backend that resolves with `null` (not found). The full cycle runs —
leader fetches, follower subscribes, fetch settles — and afterwards the
leader's call has returned `null` but the follower has NOT resolved to
`null`: it is still waiting, because the emitted `null` session passes no
follower's filter (it is the same JavaScript value as the reset marker).
This contradicts the claim that every caller resolves to the not-found
result. -/
theorem C3_null_fetch_leaves_follower_waiting :
    Exec (initConfig ["s1", "s1"])
      [Event.fetch 0 "s1", Event.wait 1 "s1",
       Event.settle 0 "s1" (FetchResult.ok none)] cHungFollower ∧
    cHungFollower.refreshingSessions = [] ∧
    cHungFollower.tasks[0]? = some { sessionId := "s1", phase := Phase.doneOk none } ∧
    cHungFollower.tasks[1]? = some { sessionId := "s1", phase := Phase.following } := by
  refine ⟨?_, rfl, rfl, rfl⟩
  exact Exec.cons (Step.leader 0 ⟨"s1", Phase.start⟩ (by decide) rfl (by decide))
    (Exec.cons (Step.follower 1 ⟨"s1", Phase.start⟩ (by decide) rfl (by decide))
      (Exec.cons (Step.settle 0 ⟨"s1", Phase.fetching⟩ (FetchResult.ok none)
        (by decide) rfl) Exec.nil))

theorem deliver_length (e : Emit) (ts : List Task) :
    (deliver e ts).length = ts.length :=
  List.length_map ts (deliverTask e)

theorem deliverAll_length (es : List Emit) (ts : List Task) :
    (deliverAll es ts).length = ts.length := by
  induction es generalizing ts with
  | nil => rfl
  | cons e es ih =>
    have h1 : deliverAll (e :: es) ts = deliverAll es (deliver e ts) := rfl
    rw [h1, ih (deliver e ts), deliver_length]

/-- C4: when the backing-store fetch rejects, the leader's call returns
`null` to its own caller (the backend error is swallowed), while every
follower waiting on that identifier is resolved by throwing an `Error`
whose message is the session identifier. -/
theorem C4_error_outcome_asymmetry (c c' : Config) (i : Nat) (sid : String)
    (hs : Step c (Event.settle i sid FetchResult.error) c') :
    c'.tasks[i]? = some { sessionId := sid, phase := Phase.doneOk none } ∧
    ∀ (j : Nat) (t' : Task), c.tasks[j]? = some t' → t'.phase = Phase.following →
      t'.sessionId = sid →
      c'.tasks[j]? = some { t' with phase := Phase.doneErr sid } := by
  cases hs with
  | settle i t r hget hph =>
    rw [settleConfig_eq c i t FetchResult.error hget]
    have hlen : i < c.tasks.length := by
      obtain ⟨hlt, _⟩ := List.getElem?_eq_some_iff.mp hget
      exact hlt
    constructor
    · show ((deliverAll (emissionsFor t.sessionId FetchResult.error) c.tasks).set i
          { sessionId := t.sessionId, phase := leaderDone FetchResult.error })[i]? = _
      rw [List.getElem?_set_self (by rw [deliverAll_length]; exact hlen)]
      rfl
    · intro j t' hget' hph' hsid'
      have hji : i ≠ j := by
        intro he
        rw [he, hget'] at hget
        injection hget with h2
        rw [← h2] at hph
        rw [hph'] at hph
        simp at hph
      show ((deliverAll (emissionsFor t.sessionId FetchResult.error) c.tasks).set i
          { sessionId := t.sessionId, phase := leaderDone FetchResult.error })[j]? = _
      rw [List.getElem?_set_ne hji]
      have hchain : deliverAll (emissionsFor t.sessionId FetchResult.error) c.tasks
          = deliver (Emit.val none) (deliver (Emit.err t.sessionId) c.tasks) := rfl
      rw [hchain]
      unfold deliver
      rw [List.getElem?_map, List.getElem?_map, hget']
      have h1 : deliverTask (Emit.err t.sessionId) t'
          = { t' with phase := Phase.doneErr t.sessionId } := by
        obtain ⟨s2, ph2⟩ := t'
        simp only [Task.sessionId] at hsid'
        simp only [Task.phase] at hph'
        subst hph'
        subst hsid'
        simp [deliverTask, matchesFilter, Emit.isError, Emit.errMessage,
          Emit.optInfoSessionId]
      simp only [Option.map_some']
      rw [h1]
      rfl

/-- C4 witness: one leader and one follower for `"s3"`, backend rejects:
the leader ends returning `null`, the follower ends throwing the `Error`
tagged `"s3"`. -/
theorem C4_error_outcome_asymmetry_witness :
    (settleConfig cS3 0 FetchResult.error).tasks[0]?
      = some { sessionId := "s3", phase := Phase.doneOk none } ∧
    (settleConfig cS3 0 FetchResult.error).tasks[1]?
      = some { sessionId := "s3", phase := Phase.doneErr "s3" } := by
  have h := C4_error_outcome_asymmetry cS3 (settleConfig cS3 0 FetchResult.error)
    0 "s3"
    (Step.settle 0 ⟨"s3", Phase.fetching⟩ FetchResult.error (by decide) rfl)
  exact ⟨h.1, h.2 1 ⟨"s3", Phase.following⟩ (by decide) rfl rfl⟩

/-- C5: a suspended follower's wait is a one-shot wait with exactly this
acceptance condition: a notification matches iff it is a non-error session
whose `info.sessionId` equals the follower's identifier, or an error whose
message equals that identifier; the `null` reset marker never matches; a
non-matching notification leaves the follower waiting; the first matching
notification resolves it (to the session, or to throwing the error); and a
task that is no longer waiting is not affected by any further
notification. -/
theorem C5_follower_one_shot_filter :
    (∀ (sid : String) (e : Emit),
      matchesFilter sid e = true ↔
        ((∃ s : Session, e = Emit.val (some s) ∧ s.info.sessionId = sid) ∨
          e = Emit.err sid)) ∧
    (∀ sid : String, matchesFilter sid (Emit.val none) = false) ∧
    (∀ (e : Emit) (t : Task), t.phase = Phase.following →
      matchesFilter t.sessionId e = false → deliverTask e t = t) ∧
    (∀ (s : Session) (t : Task), t.phase = Phase.following →
      matchesFilter t.sessionId (Emit.val (some s)) = true →
      deliverTask (Emit.val (some s)) t
        = { t with phase := Phase.doneOk (some s) }) ∧
    (∀ (m : String) (t : Task), t.phase = Phase.following →
      matchesFilter t.sessionId (Emit.err m) = true →
      deliverTask (Emit.err m) t = { t with phase := Phase.doneErr m }) ∧
    (∀ (e : Emit) (t : Task), t.phase ≠ Phase.following →
      deliverTask e t = t) := by
  refine ⟨?_, ?_, ?_, ?_, ?_, fun e t h => deliverTask_eq_of_not_following e t h⟩
  · intro sid e
    cases e with
    | val v =>
      cases v with
      | none =>
        simp [matchesFilter, Emit.isError, Emit.optInfoSessionId, Emit.errMessage]
      | some s =>
        simp [matchesFilter, Emit.isError, Emit.optInfoSessionId, Emit.errMessage]
    | err m =>
      simp [matchesFilter, Emit.isError, Emit.optInfoSessionId, Emit.errMessage]
  · intro sid
    rfl
  · intro e t hph hm
    obtain ⟨s2, ph2⟩ := t
    simp only [Task.phase] at hph
    subst hph
    simp only [Task.sessionId] at hm
    simp [deliverTask, hm]
  · intro s t hph hm
    obtain ⟨s2, ph2⟩ := t
    simp only [Task.phase] at hph
    subst hph
    simp only [Task.sessionId] at hm
    simp [deliverTask, hm]
  · intro m t hph hm
    obtain ⟨s2, ph2⟩ := t
    simp only [Task.phase] at hph
    subst hph
    simp only [Task.sessionId] at hm
    simp [deliverTask, hm]

/-- C5 witness: concrete matches and deliveries for identifier `"a"`. -/
theorem C5_follower_one_shot_filter_witness :
    matchesFilter "a" (Emit.err "a") = true ∧
    deliverTask (Emit.err "a") ⟨"a", Phase.following⟩
      = ⟨"a", Phase.doneErr "a"⟩ ∧
    deliverTask (Emit.val none) ⟨"a", Phase.following⟩
      = ⟨"a", Phase.following⟩ ∧
    deliverTask (Emit.err "a") ⟨"a", Phase.doneErr "a"⟩
      = ⟨"a", Phase.doneErr "a"⟩ := by
  have h := C5_follower_one_shot_filter
  refine ⟨(h.1 "a" (Emit.err "a")).mpr (Or.inr rfl),
    h.2.2.2.2.1 "a" ⟨"a", Phase.following⟩ rfl (by decide),
    h.2.2.1 (Emit.val none) ⟨"a", Phase.following⟩ rfl (by decide),
    h.2.2.2.2.2 (Emit.err "a") ⟨"a", Phase.doneErr "a"⟩ (by decide)⟩

/-- C6: every step of the system is either a settle step — in which case
exactly two values are emitted onto the shared `refreshedSubject`, first
the substantive notification (the fetched session on success, the failure
tagged with the identifier on rejection) and then immediately the `null`
reset marker — or a step that emits nothing; and the settle step's new task
list is exactly the one obtained by delivering those two values in that
order. -/
theorem C6_exactly_two_emissions (c c' : Config) (e : Event)
    (hs : Step c e c') :
    (∀ (i : Nat) (sid : String) (r : FetchResult), e = Event.settle i sid r →
      channelEmissions e = [substantiveEmit sid r, Emit.val none] ∧
      (channelEmissions e).length = 2 ∧
      ∃ t : Task, c.tasks[i]? = some t ∧ t.sessionId = sid ∧
        c'.tasks = (deliverAll (channelEmissions e) c.tasks).set i
          { sessionId := sid, phase := leaderDone r }) ∧
    (∀ (i : Nat) (sid : String),
      (e = Event.fetch i sid ∨ e = Event.wait i sid) →
      channelEmissions e = []) := by
  cases hs with
  | follower i t hget hph hin =>
    refine ⟨?_, fun _ _ _ => rfl⟩
    intro i2 sid2 r2 heq
    cases heq
  | leader i t hget hph hnin =>
    refine ⟨?_, fun _ _ _ => rfl⟩
    intro i2 sid2 r2 heq
    cases heq
  | settle i t r hget hph =>
    constructor
    · intro i2 sid2 r2 heq
      injection heq with h1 h2 h3
      subst h1
      subst h2
      subst h3
      refine ⟨?_, ?_, t, hget, rfl, ?_⟩
      · cases r <;> rfl
      · cases r <;> rfl
      · rw [settleConfig_eq c i t r hget]
        rfl
    · intro i2 sid2 heq
      rcases heq with heq | heq <;> cases heq

/-- C6 witness: the settle step of the `"s3"` failure scenario emits
exactly the tagged error followed by the reset marker. -/
theorem C6_exactly_two_emissions_witness :
    channelEmissions (Event.settle 0 "s3" FetchResult.error)
      = [Emit.err "s3", Emit.val none] ∧
    (channelEmissions (Event.settle 0 "s3" FetchResult.error)).length = 2 := by
  have h := C6_exactly_two_emissions cS3 (settleConfig cS3 0 FetchResult.error)
    (Event.settle 0 "s3" FetchResult.error)
    (Step.settle 0 ⟨"s3", Phase.fetching⟩ FetchResult.error (by decide) rfl)
  have h2 := h.1 0 "s3" FetchResult.error rfl
  exact ⟨h2.1, h2.2.1⟩

/-- C7: after a fetch cycle settles — with a session, with `null`, or with
a rejection — the identifier is no longer in `refreshingSessions`, and any
later call for the same identifier that is still at its entry point takes
the leader path, invoking `getSessionFromStorage` again. -/
theorem C7_cleanup_enables_fresh_fetch (c c' : Config) (i : Nat)
    (sid : String) (r : FetchResult) (hc : Reachable c)
    (hs : Step c (Event.settle i sid r) c') :
    sid ∉ c'.refreshingSessions ∧
    ∀ (j : Nat) (t' : Task), c'.tasks[j]? = some t' →
      t'.phase = Phase.start → t'.sessionId = sid →
      Step c' (Event.fetch j sid) (leaderConfig c' j t') := by
  have hI := reachable_Inv hc
  cases hs with
  | settle i t r hget hph =>
    obtain ⟨h2a, h2b⟩ := hI t.sessionId
    have hmemT : t ∈ c.tasks := List.getElem?_mem hget
    have hpos : 0 < numFetching t.sessionId c.tasks := by
      unfold numFetching
      rw [List.countP_pos_iff]
      exact ⟨t, hmemT, by simp [pFetch, hph]⟩
    have hmemR : t.sessionId ∈ c.refreshingSessions := by
      by_contra hx
      rw [← List.count_eq_zero] at hx
      omega
    have hR : (settleConfig c i r).refreshingSessions
        = c.refreshingSessions.erase t.sessionId := by
      rw [settleConfig_eq c i t r hget]
      exact jsSpliceOne_jsIndexOf _ _ hmemR
    have hnot : t.sessionId ∉ (settleConfig c i r).refreshingSessions := by
      rw [hR, ← List.count_eq_zero, List.count_erase_self]
      omega
    refine ⟨hnot, ?_⟩
    intro j t' hget' hph' hsid'
    have hguard : ¬ jsIndexOf (settleConfig c i r).refreshingSessions
        t'.sessionId > -1 := by
      rw [jsIndexOf_gt_neg1_iff, hsid']
      exact hnot
    have h := Step.leader j t' hget' hph' hguard
    rw [← hsid']
    exact h

/-- C7 witness: with the `"s4"` leader in flight and a second `"s4"` call
not yet started, the settle of the first cycle re-enables a fresh leader
fetch for the second call. -/
theorem C7_cleanup_enables_fresh_fetch_witness :
    "s4" ∉ (settleConfig cS4 0
      (FetchResult.ok (some ⟨⟨"s4"⟩⟩))).refreshingSessions ∧
    Step (settleConfig cS4 0 (FetchResult.ok (some ⟨⟨"s4"⟩⟩)))
      (Event.fetch 1 "s4")
      (leaderConfig (settleConfig cS4 0 (FetchResult.ok (some ⟨⟨"s4"⟩⟩)))
        1 ⟨"s4", Phase.start⟩) := by
  have hre : Reachable cS4 :=
    ⟨["s4", "s4"], [Event.fetch 0 "s4"],
      Exec.cons (Step.leader 0 ⟨"s4", Phase.start⟩ (by decide) rfl (by decide))
        Exec.nil⟩
  have h := C7_cleanup_enables_fresh_fetch cS4
    (settleConfig cS4 0 (FetchResult.ok (some ⟨⟨"s4"⟩⟩))) 0 "s4"
    (FetchResult.ok (some ⟨⟨"s4"⟩⟩)) hre
    (Step.settle 0 ⟨"s4", Phase.fetching⟩ (FetchResult.ok (some ⟨⟨"s4"⟩⟩))
      (by decide) rfl)
  exact ⟨h.1, h.2 1 ⟨"s4", Phase.start⟩ (by decide) rfl rfl⟩

/-- C8: calls for distinct identifiers are independent. A call whose own
identifier is not in flight always takes the leader path and triggers its
own fetch, whatever other identifiers are in flight; a call waits only
when its own identifier is in flight; and a leader whose fetch result is
available can settle at any moment — its outcome is fixed by its own
result, and every other in-flight leader is left exactly as it was. -/
theorem C8_distinct_identifiers_independent (c : Config) :
    (∀ (i : Nat) (t : Task), c.tasks[i]? = some t →
      t.phase = Phase.start → t.sessionId ∉ c.refreshingSessions →
      Step c (Event.fetch i t.sessionId) (leaderConfig c i t)) ∧
    (∀ (i : Nat) (sid : String) (c' : Config),
      Step c (Event.wait i sid) c' →
      sid ∈ c.refreshingSessions ∧
      ∃ t : Task, c.tasks[i]? = some t ∧ t.sessionId = sid) ∧
    (∀ (i : Nat) (t : Task) (r : FetchResult), c.tasks[i]? = some t →
      t.phase = Phase.fetching →
      Step c (Event.settle i t.sessionId r) (settleConfig c i r) ∧
      (settleConfig c i r).tasks[i]?
        = some { sessionId := t.sessionId, phase := leaderDone r } ∧
      ∀ (j : Nat) (t2 : Task), j ≠ i → c.tasks[j]? = some t2 →
        t2.phase = Phase.fetching →
        (settleConfig c i r).tasks[j]? = some t2) := by
  refine ⟨?_, ?_, ?_⟩
  · intro i t hget hph hnin
    refine Step.leader i t hget hph ?_
    rw [jsIndexOf_gt_neg1_iff]
    exact hnin
  · intro i sid c' hs
    cases hs with
    | follower i t hget hph hin =>
      rw [← jsIndexOf_gt_neg1_iff]
      exact ⟨hin, t, hget, rfl⟩
  · intro i t r hget hph
    have hlen : i < c.tasks.length := by
      obtain ⟨hlt, _⟩ := List.getElem?_eq_some_iff.mp hget
      exact hlt
    refine ⟨Step.settle i t r hget hph, ?_, ?_⟩
    · rw [settleConfig_eq c i t r hget]
      show ((deliverAll (emissionsFor t.sessionId r) c.tasks).set i
          { sessionId := t.sessionId, phase := leaderDone r })[i]? = _
      rw [List.getElem?_set_self (by rw [deliverAll_length]; exact hlen)]
    · intro j t2 hji hget2 hph2
      rw [settleConfig_eq c i t r hget]
      show ((deliverAll (emissionsFor t.sessionId r) c.tasks).set i
          { sessionId := t.sessionId, phase := leaderDone r })[j]? = _
      rw [List.getElem?_set_ne (fun he => hji he.symm)]
      exact deliverAll_getElem_of_not_following _ _ _ _ hget2
        (by rw [hph2]; intro hcon; cases hcon)

/-- C8 witness: with the `"s5"` fetch in flight, the `"s6"` call still
takes the leader path and fetches for itself, and the `"s5"` leader can
settle at any time with its own result. -/
theorem C8_distinct_identifiers_independent_witness :
    Step cMix (Event.fetch 1 "s6") (leaderConfig cMix 1 ⟨"s6", Phase.start⟩) ∧
    Step cMix (Event.settle 0 "s5" FetchResult.error)
      (settleConfig cMix 0 FetchResult.error) ∧
    (settleConfig cMix 0 FetchResult.error).tasks[0]?
      = some { sessionId := "s5", phase := Phase.doneOk none } := by
  have h := C8_distinct_identifiers_independent cMix
  have h3 := h.2.2 0 ⟨"s5", Phase.fetching⟩ FetchResult.error (by decide) rfl
  exact ⟨h.1 1 ⟨"s6", Phase.start⟩ (by decide) rfl (by decide), h3.1, h3.2.1⟩

/-- C9: for every error passed to `errorHandler`, the response body is
exactly the error's message, and the response status is the error's
`statusCode` when the error is an `HttpError` with a truthy (non-zero)
status code, and `500` in every other case — for a non-`HttpError` as well
as for an `HttpError` whose `statusCode` is `0`. -/
theorem C9_errorHandler_status_and_body (e : JsError) :
    (errorHandler e).body = e.message ∧
    (errorHandler e).status =
      (match e with
        | .http he => if he.statusCode ≠ 0 then he.statusCode else 500
        | .plain _ => 500) := by
  cases e with
  | http he =>
    refine ⟨rfl, ?_⟩
    by_cases h : he.statusCode = 0
    · simp [errorHandler, jsOrNum, h]
    · simp [errorHandler, jsOrNum, h]
  | plain m => exact ⟨rfl, rfl⟩

/-- C10: with well-formed session strings (absent or non-empty),
`validateAccessGrant` calls `next()` iff the session holds an access grant
and either no expiration date is stored or the stored date's time is not
strictly before the current time; in every other case it responds with
status 403 (and hence not `next`); and a grant stored without an
expiration date is never treated as expired. -/
theorem C10_validateAccessGrant_gate (getTime : String → Int) (now : Int)
    (s : SessionData) (hg : s.accessGrant ≠ some "")
    (hd : s.accessGrantExpirationDate ≠ some "") :
    (validateAccessGrant getTime now s = VcOutcome.next ↔
      ((∃ g : String, s.accessGrant = some g) ∧
        (s.accessGrantExpirationDate = none ∨
          ∃ d : String, s.accessGrantExpirationDate = some d ∧
            ¬ getTime d < now))) ∧
    (validateAccessGrant getTime now s ≠ VcOutcome.next →
      ∃ b : String,
        validateAccessGrant getTime now s = VcOutcome.respond 403 b) ∧
    ((∃ g : String, s.accessGrant = some g) →
      s.accessGrantExpirationDate = none →
      validateAccessGrant getTime now s = VcOutcome.next) := by
  obtain ⟨ag, ad⟩ := s
  cases ag with
  | none =>
    refine ⟨?_, ?_, ?_⟩
    · constructor
      · intro h
        exact absurd h (by simp [validateAccessGrant, truthyStr])
      · rintro ⟨⟨g, hgx⟩, _⟩
        cases hgx
    · intro _
      exact ⟨"No access grant for pod found.", rfl⟩
    · rintro ⟨g, hgx⟩ _
      cases hgx
  | some g =>
    have hgne : (g == "") = false := by
      simp only [SessionData.accessGrant] at hg
      simp only [beq_eq_false_iff_ne, ne_eq]
      intro h
      exact hg (by rw [h])
    cases ad with
    | none =>
      have hres : validateAccessGrant getTime now ⟨some g, none⟩
          = VcOutcome.next := by
        simp [validateAccessGrant, truthyStr, hgne]
      refine ⟨?_, ?_, ?_⟩
      · rw [hres]
        simp
      · intro h
        exact absurd hres h
      · intro _ _
        exact hres
    | some d =>
      have hdne : (d == "") = false := by
        simp only [SessionData.accessGrantExpirationDate] at hd
        simp only [beq_eq_false_iff_ne, ne_eq]
        intro h
        exact hd (by rw [h])
      by_cases hlt : getTime d < now
      · have hres : validateAccessGrant getTime now ⟨some g, some d⟩
            = VcOutcome.respond 403 "Access grant for pod has expired." := by
          simp [validateAccessGrant, truthyStr, hgne, hdne, hlt]
        refine ⟨?_, ?_, ?_⟩
        · rw [hres]
          constructor
          · intro h
            cases h
          · rintro ⟨_, hcase⟩
            rcases hcase with hnone | ⟨d2, hd2, hnl⟩
            · cases hnone
            · injection hd2 with hdd
              exact absurd (hdd ▸ hlt) hnl
        · intro _
          exact ⟨_, hres⟩
        · rintro _ hnone
          cases hnone
      · have hres : validateAccessGrant getTime now ⟨some g, some d⟩
            = VcOutcome.next := by
          simp [validateAccessGrant, truthyStr, hgne, hdne, hlt]
        refine ⟨?_, ?_, ?_⟩
        · rw [hres]
          simp only [true_iff]
          exact ⟨⟨g, rfl⟩, Or.inr ⟨d, rfl, hlt⟩⟩
        · intro h
          exact absurd hres h
        · intro _ _
          exact hres

/-- C10 witness: a session holding a grant with no expiration date passes
through to `next()`. -/
theorem C10_validateAccessGrant_gate_witness :
    validateAccessGrant (fun _ => (0 : Int)) 5 ⟨some "g", none⟩
      = VcOutcome.next := by
  exact (C10_validateAccessGrant_gate (fun _ => (0 : Int)) 5 ⟨some "g", none⟩
    (by decide) (by decide)).2.2 ⟨"g", rfl⟩ rfl

end WeAre
